import Mathlib

/-!
Verification development for the Bluetooth chat application.

The application is a single React component holding all state in hooks:
`devices`, `connectedDevices`, `messages`, `currentMessage`, `selectedDevice`.
We embed that state as `AppState` and each event handler
(`scanForDevices`' device upsert, `connectToDevice`, `disconnectDevice`,
`sendMessage`, the `setSelectedDevice` state setter, and the bodies of the
`setTimeout` callbacks) as a pure state transformer.

Non-determinism of the environment is made explicit:
`Math.random()` draws and `Date` timestamps are parameters of the actions
that consume them, and scheduled `setTimeout` callbacks become `PendingEvent`
entries fired by an explicit `fire` action, so any interleaving of timers is
a trace.  Presentation-only state (`isScanning`, `bluetoothSupported`, toasts,
scrolling) has no effect on the modelled state and is omitted.
-/

namespace BTChat

/-- Device classification, the `type` union of the `BluetoothDevice`
TypeScript interface: `"phone" | "laptop" | "headphones" | "unknown"`. -/
inductive DeviceType where
  | phone
  | laptop
  | headphones
  | unknown
deriving DecidableEq, Repr

/-- The `BluetoothDevice` interface: `id`, `name`, `type`, `connected`, `rssi`. -/
structure BluetoothDevice where
  id : String
  name : String
  type : DeviceType
  connected : Bool
  rssi : Int
deriving DecidableEq, Repr

/-- The `Message` interface: `id`, `deviceId`, `deviceName`, `content`,
`timestamp`, `sent`.  The `Date` timestamp is modelled as a natural number
(milliseconds since epoch). -/
structure Message where
  id : String
  deviceId : String
  deviceName : String
  content : String
  timestamp : Nat
  sent : Bool
deriving DecidableEq, Repr

/-- The fixed text of the simulated welcome message created in the
`setTimeout` callback of `connectToDevice`. -/
def welcomeText : String := "Hello! I\x27m connected via Bluetooth."

/-- The fixed reply pool, the `responses` array in `sendMessage`. -/
def responses : List String :=
  [ "Got your message!"
  , "Thanks for reaching out via Bluetooth!"
  , "This offline chat is pretty cool!"
  , "No internet needed for this conversation!"
  , "Bluetooth messaging works great!"
  , "I received your message loud and clear!"
  , "Peer-to-peer communication is awesome!" ]

/-- Reply selection `responses[Math.floor(Math.random() * responses.length)]`,
with the `Math.random()` draw `u` as an explicit parameter. -/
def chooseResponse (u : ℚ) : String :=
  responses.getD (Int.toNat ⌊u * 7⌋) ""

/-- The four `simulatedDevices` installed by the mount effect. -/
def simulatedDevices : List BluetoothDevice :=
  [ ⟨"1", "Alice\x27s iPhone", .phone, false, -45⟩
  , ⟨"2", "Bob\x27s MacBook", .laptop, false, -62⟩
  , ⟨"3", "Charlie\x27s Android", .phone, false, -38⟩
  , ⟨"4", "AirPods Pro", .headphones, false, -55⟩ ]

/-- A scheduled `setTimeout` callback that will append a message when it
fires: the welcome message scheduled by `connectToDevice` (delay 1000 ms) or
the simulated reply scheduled by `sendMessage`
(delay `1000 + Math.random() * 2000` ms).  The device id and name are
captured by the closure at scheduling time; the message id, timestamp and
(for replies) the reply choice are drawn when the callback fires. -/
inductive PendingEvent where
  | welcome (deviceId deviceName : String) (delay : ℚ)
  | reply (deviceId deviceName : String) (delay : ℚ)
deriving DecidableEq, Repr

/-- The component state relevant to the session / conversation core. -/
structure AppState where
  devices : List BluetoothDevice
  connectedDevices : List BluetoothDevice
  messages : List Message
  currentMessage : String
  selectedDevice : Option BluetoothDevice
  pending : List PendingEvent
deriving DecidableEq, Repr

/-- The device record built by `scanForDevices` from a Web Bluetooth result:
`{ id, name, type: "unknown", connected: false, rssi: -50 }`. -/
def mkScannedDevice (id name : String) : BluetoothDevice :=
  ⟨id, name, .unknown, false, -50⟩

/-- The `setDevices` updater inside `scanForDevices`:
`const exists = prev.find((d) => d.id === newDevice.id);`
`if (!exists) return [...prev, newDevice]; return prev;`. -/
def upsertDiscovered (ds : List BluetoothDevice) (nd : BluetoothDevice) :
    List BluetoothDevice :=
  match ds.find? (fun d => d.id == nd.id) with
  | some _ => ds
  | none => ds ++ [nd]

/-- `connectToDevice(device)`: marks the entry with the same id connected in
`devices`, appends `{...device, connected: true}` to `connectedDevices`, and
schedules (setTimeout, 1000 ms) the welcome message for the device.  The
`try` body cannot throw, so the catch branch is dead code. -/
def connectToDevice (st : AppState) (device : BluetoothDevice) : AppState :=
  { st with
    devices := st.devices.map
      (fun d => if d.id == device.id then { d with connected := true } else d)
    connectedDevices := st.connectedDevices ++ [{ device with connected := true }]
    pending := st.pending ++ [.welcome device.id device.name 1000] }

/-- `disconnectDevice(device)`: marks the entry disconnected in `devices`,
filters the id out of `connectedDevices`, and clears `selectedDevice` when
`selectedDevice?.id === device.id`. -/
def disconnectDevice (st : AppState) (device : BluetoothDevice) : AppState :=
  { st with
    devices := st.devices.map
      (fun d => if d.id == device.id then { d with connected := false } else d)
    connectedDevices := st.connectedDevices.filter (fun d => !(d.id == device.id))
    selectedDevice :=
      match st.selectedDevice with
      | some s => if s.id == device.id then none else some s
      | none => none }

/-- The raw `setSelectedDevice` state setter as invoked from the connected
devices list (`onClick={() => setSelectedDevice(device)}`). -/
def setSelectedDevice (st : AppState) (device : BluetoothDevice) : AppState :=
  { st with selectedDevice := some device }

/-- Whitespace for the purpose of `String.prototype.trim`: the ECMAScript
WhiteSpace and LineTerminator code points (TAB, LF, VT, FF, CR, SP, NBSP,
LS, PS, ZWNBSP; further Unicode Zs code points behave the same and are
covered by `Char.isWhitespace`-style reasoning nowhere in the claims). -/
def isJsWhitespace (c : Char) : Bool :=
  c == ' ' || c == '\t' || c == '\n' || c == '\r' ||
  c == '\x0b' || c == '\x0c' || c == '\u00A0' ||
  c == '\u2028' || c == '\u2029' || c == '\uFEFF'

/-- `String.prototype.trim()`: removes leading and trailing whitespace. -/
def jsTrim (s : String) : String :=
  String.mk (((s.data.dropWhile isJsWhitespace).reverse.dropWhile
    isJsWhitespace).reverse)

/-- The message object built by `sendMessage` from the trimmed draft. -/
def mkSentMessage (sel : BluetoothDevice) (content : String) (rid : String)
    (now : Nat) : Message :=
  ⟨rid, sel.id, sel.name, content, now, true⟩

/-- `sendMessage()`: returns unchanged when
`!currentMessage.trim() || !selectedDevice`; otherwise appends the outbound
message (id `rid` drawn from `Math.random().toString()`, timestamp `now`),
clears the draft, and schedules the simulated reply with delay
`1000 + u * 2000` where `u` is the `Math.random()` draw. -/
def sendMessage (st : AppState) (rid : String) (now : Nat) (u : ℚ) : AppState :=
  match st.selectedDevice with
  | none => st
  | some sel =>
    if jsTrim st.currentMessage = "" then st
    else
      { st with
        messages :=
          st.messages ++ [mkSentMessage sel (jsTrim st.currentMessage) rid now]
        currentMessage := ""
        pending := st.pending ++ [.reply sel.id sel.name (1000 + u * 2000)] }

/-- `getMessagesForDevice(deviceId)`:
`messages.filter((m) => m.deviceId === deviceId)`. -/
def getMessagesForDevice (st : AppState) (deviceId : String) : List Message :=
  st.messages.filter (fun m => m.deviceId == deviceId)

/-- The message appended when a scheduled callback fires: the welcome
callback appends the fixed welcome text, the reply callback appends a string
chosen from the reply pool; both are inbound (`sent: false`) and attributed
to the device captured at scheduling time.  `rid`, `now`, `u` are the
`Math.random().toString()` id, the `new Date()` timestamp and the reply
choice draw made when the callback runs. -/
def firedMessage (ev : PendingEvent) (rid : String) (now : Nat) (u : ℚ) :
    Message :=
  match ev with
  | .welcome did dname _ => ⟨rid, did, dname, welcomeText, now, false⟩
  | .reply did dname _ => ⟨rid, did, dname, chooseResponse u, now, false⟩

/-- Firing of the `j`-th pending `setTimeout` callback: the callback appends
its message via the `setMessages(prev => [...prev, msg])` updater and is
removed from the pending set.  The callbacks inspect neither
`connectedDevices` nor any other state, so firing is defined on any state. -/
def fireAt (st : AppState) (j : Nat) (rid : String) (now : Nat) (u : ℚ) :
    AppState :=
  match st.pending[j]? with
  | none => st
  | some ev =>
    { st with
      messages := st.messages ++ [firedMessage ev rid now u]
      pending := st.pending.eraseIdx j }

/-- User-interface and timer events, with every environment draw
(`Math.random()` values, timestamps) carried explicitly. -/
inductive Action where
  | scan (id name : String)
  | connect (d : BluetoothDevice)
  | disconnect (d : BluetoothDevice)
  | select (d : BluetoothDevice)
  | typeMessage (s : String)
  | send (rid : String) (now : Nat) (u : ℚ)
  | fire (j : Nat) (rid : String) (now : Nat) (u : ℚ)

/-- Effect of one event on the state. -/
def applyAction (st : AppState) : Action → AppState
  | .scan i n => { st with devices := upsertDiscovered st.devices (mkScannedDevice i n) }
  | .connect d => connectToDevice st d
  | .disconnect d => disconnectDevice st d
  | .select d => setSelectedDevice st d
  | .typeMessage s => { st with currentMessage := s }
  | .send rid now u => sendMessage st rid now u
  | .fire j rid now u => fireAt st j rid now u

/-- Which events the rendered interface can emit in a state: the
connect / disconnect buttons are rendered per entry of `devices` according
to its `connected` flag, and the selection click handler exists only on
entries of the connected devices list. -/
def validAction (st : AppState) : Action → Bool
  | .scan _ _ => true
  | .connect d => decide (d ∈ st.devices) && !d.connected
  | .disconnect d => decide (d ∈ st.devices) && d.connected
  | .select d => decide (d ∈ st.connectedDevices)
  | .typeMessage _ => true
  | .send _ _ _ => true
  | .fire _ _ _ _ => true

/-- A trace of events is valid from `st` when each event is available in the
state reached by its predecessors. -/
def validFrom (st : AppState) : List Action → Bool
  | [] => true
  | a :: rest => validAction st a && validFrom (applyAction st a) rest

/-- Runs a trace of events from a state. -/
def runTrace (st : AppState) : List Action → AppState
  | [] => st
  | a :: rest => runTrace (applyAction st a) rest

/-- The state after mount with no stored snapshot: the simulated devices are
installed, every other field is at its `useState` initial value. -/
def initState : AppState :=
  { devices := simulatedDevices
    connectedDevices := []
    messages := []
    currentMessage := ""
    selectedDevice := none
    pending := [] }

/-! Persistence boundary.  The save effect runs
`localStorage.setItem("bluetooth-chat-messages", JSON.stringify(messages))`
and the mount effect runs `getItem` followed by `JSON.parse` when the stored
string is non-null.  `JSON.stringify` / `JSON.parse` round-trip strings,
numbers and booleans exactly, but serialize a `Date` to its ISO string, so
the parsed records carry a string timestamp: `StoredMessage` is the parsed
shape, and the stringify/parse pair is modelled as the identity on that
shape (the JSON contract).  The storage slot under the single fixed key is
an `Option`, `none` meaning no snapshot was ever written. -/

/-- Shape of one message after a `JSON.stringify` / `JSON.parse` round trip:
identical `id`, `deviceId`, `deviceName`, `content`, `sent`; the `Date`
timestamp degraded to its ISO string. -/
structure StoredMessage where
  id : String
  deviceId : String
  deviceName : String
  content : String
  timestampIso : String
  sent : Bool
deriving DecidableEq, Repr

/-- Effect of `JSON.stringify` followed by `JSON.parse` on one message. -/
def encodeMessage (m : Message) : StoredMessage :=
  ⟨m.id, m.deviceId, m.deviceName, m.content, toString m.timestamp, m.sent⟩

/-- The save effect: writes the serialized full message log to the storage
slot, overwriting whatever was there. -/
def saveSnapshot (ms : List Message) : Option (List StoredMessage) :=
  some (ms.map encodeMessage)

/-- The mount-time load: `getItem` returning null (`none`) leaves the
initial empty log in place; otherwise the parsed log replaces it. -/
def loadSnapshot (store : Option (List StoredMessage)) : List StoredMessage :=
  match store with
  | none => []
  | some ss => ss

/-! Counting helpers used by the temporal statements. -/

/-- Recognizes an inbound message carrying the fixed welcome text. -/
def isWelcomeMsg (m : Message) : Bool :=
  !m.sent && m.content == welcomeText

/-- Number of inbound messages with the welcome text on the thread of `i`. -/
def countWelcome (st : AppState) (i : String) : Nat :=
  (getMessagesForDevice st i).countP isWelcomeMsg

/-- Recognizes a pending welcome callback for device `i`. -/
def isPendingWelcomeFor (i : String) : PendingEvent → Bool
  | .welcome did _ _ => did == i
  | .reply _ _ _ => false

/-- Number of still-pending welcome callbacks for device `i`. -/
def pendingWelcomeCount (st : AppState) (i : String) : Nat :=
  st.pending.countP (isPendingWelcomeFor i)

/-- Recognizes a connect event for device id `i`. -/
def isConnectTo (i : String) : Action → Bool
  | .connect d => d.id == i
  | _ => false

/-- Number of connect events for device id `i` in a trace. -/
def connectCount (tr : List Action) (i : String) : Nat :=
  tr.countP (isConnectTo i)

/-- The `Math.random().toString()` message-id draws an event consumes:
one for a send, one for a fired callback, none otherwise. -/
def ridsOfAction : Action → List String
  | .send rid _ _ => [rid]
  | .fire _ rid _ _ => [rid]
  | _ => []

/-- All message-id draws of a trace, in order. -/
def ridsOf (tr : List Action) : List String :=
  (tr.map ridsOfAction).flatten

/-! Concrete states and traces used to instantiate the theorems. -/

/-- The first simulated device. -/
def aliceDev : BluetoothDevice := ⟨"1", "Alice\x27s iPhone", .phone, false, -45⟩

/-- The first simulated device as it appears in the connected list. -/
def aliceConn : BluetoothDevice := { aliceDev with connected := true }

/-- A device id absent from the initial registry. -/
def ghostDev : BluetoothDevice := ⟨"99", "Ghost", .unknown, false, -50⟩

/-- A 501-character draft message. -/
def long501 : String := String.mk (List.replicate 501 'a')

/-- A 500-character draft message. -/
def long500 : String := String.mk (List.replicate 500 'a')

/-- A state with Alice connected and selected and a non-blank draft. -/
def stHi : AppState :=
  { initState with
    connectedDevices := [aliceConn]
    currentMessage := "hi"
    selectedDevice := some aliceConn }

/-- A state whose only pending callback is a simulated reply for a device
that is not connected. -/
def stReplyPending : AppState :=
  { initState with pending := [.reply "1" "A" 1500] }

/-- A trace that sends two messages whose id draws collide. -/
def dupTrace : List Action :=
  [ .connect aliceDev, .select aliceConn, .typeMessage "hi", .send "X" 5 0
  , .typeMessage "yo", .send "X" 6 0 ]

/-- The same trace with distinct id draws. -/
def freshTrace : List Action :=
  [ .connect aliceDev, .select aliceConn, .typeMessage "hi", .send "X" 5 0
  , .typeMessage "yo", .send "Y" 6 0 ]

/-! General helper lemmas. -/

/-- Marking by id is the identity on a device list containing no device
with that id. -/
lemma map_mark_id_of_absent (ds : List BluetoothDevice) (i : String) (b : Bool)
    (h : ∀ x ∈ ds, x.id ≠ i) :
    ds.map (fun d => if d.id == i then { d with connected := b } else d) = ds := by
  induction ds with
  | nil => rfl
  | cons a t ih =>
    have ha : (a.id == i) = false := by
      simpa using h a (List.mem_cons_self a t)
    simp only [List.map_cons, ha, Bool.false_eq_true, if_false]
    rw [ih (fun x hx => h x (List.mem_cons_of_mem a hx))]

/-- Removing the element at a position splits a `countP`. -/
lemma countP_eraseIdx_of_get {α : Type} (p : α → Bool) (l : List α) (j : Nat)
    (ev : α) (h : l.get? j = some ev) :
    (l.eraseIdx j).countP p + (if p ev then 1 else 0) = l.countP p := by
  induction l generalizing j with
  | nil => simp at h
  | cons a t ih =>
    cases j with
    | zero =>
      simp only [List.get?_cons_zero, Option.some.injEq] at h
      subst h
      simp [List.eraseIdx, List.countP_cons]
    | succ k =>
      simp only [List.get?_cons_succ] at h
      simp only [List.eraseIdx_cons_succ, List.countP_cons]
      have := ih k h
      omega

/-- A reply draw never selects the welcome text. -/
lemma chooseResponse_ne_welcomeText (u : ℚ) : chooseResponse u ≠ welcomeText := by
  unfold chooseResponse
  rcases Nat.lt_or_ge (Int.toNat ⌊u * 7⌋) 7 with hk | hk
  · set k := Int.toNat ⌊u * 7⌋ with hkdef
    interval_cases k <;> decide
  · rw [List.getD_eq_default _ _ (by simpa [responses] using hk)]
    decide

/-- Under the `Math.random` contract the reply index is in range. -/
lemma chooseResponse_index_lt (u : ℚ) (h0 : 0 ≤ u) (h1 : u < 1) :
    Int.toNat ⌊u * 7⌋ < 7 := by
  have h7 : u * 7 < ((7 : ℤ) : ℚ) := by push_cast; nlinarith
  have := Int.floor_lt.mpr h7
  omega

/-! Claim C10. -/

/-- C10: when the pending draft is empty or whitespace-only, or no device is
selected, `sendMessage` returns without appending a message, without
scheduling a reply and without raising an error: the whole state — message
log, pending callbacks, draft, selection — is exactly unchanged. -/
theorem sendMessage_noop_of_blank_or_unselected (st : AppState) (rid : String)
    (now : Nat) (u : ℚ)
    (h : jsTrim st.currentMessage = "" ∨ st.selectedDevice = none) :
    sendMessage st rid now u = st := by
  rcases h with h | h
  · cases hsel : st.selectedDevice with
    | none => simp [sendMessage, hsel]
    | some sel => simp [sendMessage, hsel, h]
  · simp [sendMessage, h]

/-- Witness for C10: a whitespace-only draft with a selected device is
silently ignored. -/
theorem sendMessage_noop_witness :
    sendMessage
        { initState with currentMessage := "   ", selectedDevice := some aliceConn }
        "X" 5 0
      = { initState with currentMessage := "   ", selectedDevice := some aliceConn } :=
  sendMessage_noop_of_blank_or_unselected _ "X" 5 0 (Or.inl (by decide))

/-! Claim C2. -/

/-- C2 (amended): `sendMessage` never fails with `InvalidMessageError` — no
such error exists in the code.  Whenever a device is selected and the
trimmed draft is non-empty, of any length whatsoever, the message is
appended; an empty or whitespace-only draft is silently ignored with no
error.  The 500-character bound exists only as the input field's
`maxLength` attribute, not as a validation in `sendMessage`. -/
theorem sendMessage_never_rejects :
    (∀ st sel rid now u, st.selectedDevice = some sel →
        jsTrim st.currentMessage ≠ "" →
        (sendMessage st rid now u).messages
          = st.messages ++ [mkSentMessage sel (jsTrim st.currentMessage) rid now])
    ∧ (∀ st rid now u, jsTrim st.currentMessage = "" →
        sendMessage st rid now u = st) := by
  constructor
  · intro st sel rid now u hsel hne
    simp [sendMessage, hsel, hne]
  · intro st rid now u h
    cases hsel : st.selectedDevice with
    | none => simp [sendMessage, hsel]
    | some sel => simp [sendMessage, hsel, h]

set_option maxRecDepth 100000 in
/-- Counterexample for C2 as stated: a 501-character draft is not rejected —
`sendMessage` appends it unchanged (and raises no error). -/
theorem sendMessage_accepts_501 :
    long501.length = 501
    ∧ (sendMessage
          { initState with currentMessage := long501, selectedDevice := some aliceConn }
          "X" 5 0).messages.map (fun m => m.content) = [long501] := by
  constructor
  · decide
  · decide

set_option maxRecDepth 100000 in
/-- Witness for C2: a draft of length exactly 500 is appended. -/
theorem sendMessage_accepts_500 :
    (sendMessage
        { initState with currentMessage := long500, selectedDevice := some aliceConn }
        "X" 5 0).messages
      = initState.messages ++ [mkSentMessage aliceConn (jsTrim long500) "X" 5] :=
  sendMessage_never_rejects.1 _ aliceConn "X" 5 0 rfl (by decide)

/-! Claim C1. -/

/-- C1 (amended): `connectToDevice` has no failure path — no
`UnknownDeviceError` exists in the code and the `catch` branch is dead.
For a device whose id is absent from the registry the registry list is left
unchanged, yet the device is still appended to the connected set (marked
connected) and its welcome message is still scheduled. -/
theorem connectToDevice_unknown_still_connects (st : AppState)
    (d : BluetoothDevice) (h : ∀ x ∈ st.devices, x.id ≠ d.id) :
    connectToDevice st d
      = { st with
          connectedDevices := st.connectedDevices ++ [{ d with connected := true }]
          pending := st.pending ++ [.welcome d.id d.name 1000] } := by
  unfold connectToDevice
  rw [map_mark_id_of_absent st.devices d.id true h]

/-- Witness for C1: connecting the unknown device `ghostDev` from the
initial state leaves the registry alone but grows the connected set. -/
theorem connectToDevice_unknown_witness :
    connectToDevice initState ghostDev
      = { initState with
          connectedDevices := [{ ghostDev with connected := true }]
          pending := [.welcome ghostDev.id ghostDev.name 1000] } :=
  connectToDevice_unknown_still_connects initState ghostDev (by decide)

/-- Counterexample for C1 as stated: `ghostDev`'s id is unknown to the
registry, yet `connectToDevice` does not leave the connected set unchanged
(and raises no error). -/
theorem connectToDevice_unknown_changes_connected :
    ghostDev.id ∉ initState.devices.map (fun d => d.id)
    ∧ (connectToDevice initState ghostDev).connectedDevices
        ≠ initState.connectedDevices := by
  constructor
  · decide
  · decide

/-! Claim C3. -/

/-- C3: `getMessagesForDevice` returns exactly the stored messages whose
`deviceId` equals the query key (so never one with a different id), as a
subsequence of the log — hence in append order — and immediately after
`sendMessage` appends a message, the thread of the selected device has that
message as its last element. -/
theorem getMessagesForDevice_correct :
    (∀ st i m, m ∈ getMessagesForDevice st i ↔ m ∈ st.messages ∧ m.deviceId = i)
    ∧ (∀ st i, (getMessagesForDevice st i).Sublist st.messages)
    ∧ (∀ st sel rid now u, st.selectedDevice = some sel →
        jsTrim st.currentMessage ≠ "" →
        getMessagesForDevice (sendMessage st rid now u) sel.id
          = getMessagesForDevice st sel.id
            ++ [mkSentMessage sel (jsTrim st.currentMessage) rid now]) := by
  refine ⟨?_, ?_, ?_⟩
  · intro st i m
    simp [getMessagesForDevice, List.mem_filter]
  · intro st i
    exact List.filter_sublist _
  · intro st sel rid now u hsel hne
    simp [getMessagesForDevice, sendMessage, hsel, hne, List.filter_append,
      mkSentMessage]

/-- Witness for C3: sending the draft of `stHi` puts the sent message at the
end of the thread of the selected device. -/
theorem getMessagesForDevice_witness :
    getMessagesForDevice (sendMessage stHi "X" 5 0) aliceConn.id
      = getMessagesForDevice stHi aliceConn.id
        ++ [mkSentMessage aliceConn (jsTrim stHi.currentMessage) "X" 5] :=
  getMessagesForDevice_correct.2.2 stHi aliceConn "X" 5 0 rfl (by decide)

/-! Claim C4. -/

/-- A device list whose ids are distinct holds at most one device with any
given id. -/
lemma countP_id_le_one_of_nodup (ds : List BluetoothDevice) (i : String)
    (hn : (ds.map (fun d => d.id)).Nodup) :
    ds.countP (fun d => d.id == i) ≤ 1 := by
  induction ds with
  | nil => simp
  | cons a t ih =>
    simp only [List.map_cons, List.nodup_cons, List.mem_map] at hn
    rcases hn with ⟨hna, hnt⟩
    rw [List.countP_cons]
    by_cases hai : a.id = i
    · have ht : t.countP (fun d => d.id == i) = 0 := by
        rw [List.countP_eq_zero]
        intro x hx
        simp only [beq_iff_eq]
        intro hxi
        exact hna ⟨x, hx, by rw [hxi, hai]⟩
      simp [ht, hai]
    · simp only [beq_iff_eq, hai]
      simpa using ih hnt

/-- Upserting keeps device ids distinct. -/
lemma upsertDiscovered_nodup (ds : List BluetoothDevice) (nd : BluetoothDevice)
    (hn : (ds.map (fun d => d.id)).Nodup) :
    ((upsertDiscovered ds nd).map (fun d => d.id)).Nodup := by
  unfold upsertDiscovered
  cases hf : ds.find? (fun d => d.id == nd.id) with
  | some d => exact hn
  | none =>
    have habs : ∀ x ∈ ds, ¬(x.id == nd.id) = true := List.find?_eq_none.mp hf
    rw [List.map_append]
    rw [List.nodup_append]
    refine ⟨hn, by simp, ?_⟩
    intro x hx
    simp only [List.map_cons, List.map_nil, List.mem_cons, List.not_mem_nil,
      or_false]
    rcases List.mem_map.mp hx with ⟨y, hy, hyx⟩
    intro hxe
    exact habs y hy (by simp [hyx, hxe])

/-- After upserting a record over a duplicate-free registry, exactly one
entry carries its id. -/
lemma upsertDiscovered_count_one (ds : List BluetoothDevice)
    (nd : BluetoothDevice) (hn : (ds.map (fun d => d.id)).Nodup) :
    (upsertDiscovered ds nd).countP (fun d => d.id == nd.id) = 1 := by
  unfold upsertDiscovered
  cases hf : ds.find? (fun d => d.id == nd.id) with
  | some d =>
    have hd : d ∈ ds := List.mem_of_find?_eq_some hf
    have hpos : 0 < ds.countP (fun d => d.id == nd.id) := by
      refine List.countP_pos_iff.mpr ⟨d, hd, ?_⟩
      have hp := List.find?_some hf
      exact hp
    have hle := countP_id_le_one_of_nodup ds nd.id hn
    show ds.countP (fun d => d.id == nd.id) = 1
    omega
  | none =>
    have habs : ∀ x ∈ ds, ¬(x.id == nd.id) = true := List.find?_eq_none.mp hf
    have hz : ds.countP (fun d => d.id == nd.id) = 0 :=
      List.countP_eq_zero.mpr habs
    rw [List.countP_append, hz, List.countP_cons]
    simp

/-- An upsert whose id is already present — in particular a repeat of an
earlier upsert — is the identity: nothing is overwritten. -/
lemma upsertDiscovered_noop_of_mem (ds : List BluetoothDevice)
    (nd : BluetoothDevice) (h : nd.id ∈ ds.map (fun d => d.id)) :
    upsertDiscovered ds nd = ds := by
  rcases List.mem_map.mp h with ⟨d, hd, hid⟩
  have : (ds.find? (fun d => d.id == nd.id)).isSome :=
    List.find?_isSome.mpr ⟨d, hd, by simp [hid]⟩
  unfold upsertDiscovered
  cases hf : ds.find? (fun d => d.id == nd.id) with
  | some d => rfl
  | none => rw [hf] at this; simp at this

/-- Folding further same-id upserts over a registry that already holds the
id exactly once changes nothing. -/
lemma foldl_upsert_noop (recs : List BluetoothDevice) (i : String) :
    ∀ ds : List BluetoothDevice, (∀ r ∈ recs, r.id = i) →
      ds.countP (fun d => d.id == i) = 1 →
      recs.foldl upsertDiscovered ds = ds := by
  induction recs with
  | nil => intro ds _ _; rfl
  | cons r t ih =>
    intro ds hall hc
    have hri : r.id = i := hall r (List.mem_cons_self r t)
    have hmem : r.id ∈ ds.map (fun d => d.id) := by
      have hpos : 0 < ds.countP (fun d => d.id == i) := by omega
      rcases List.countP_pos_iff.mp hpos with ⟨d, hd, hp⟩
      exact List.mem_map.mpr ⟨d, hd, by simp only [beq_iff_eq] at hp; rw [hp, hri]⟩
    rw [List.foldl_cons, upsertDiscovered_noop_of_mem ds r hmem]
    exact ih ds (fun x hx => hall x (List.mem_cons_of_mem r hx)) hc

/-- C4: `upsertDiscovered` is idempotent by device id.  A submission whose
id is already known is a strict no-op — the stored name, kind and signal
strength are untouched — and over a duplicate-free registry any non-empty
run of submissions carrying one id leaves exactly one entry with that id
and keeps the registry duplicate-free. -/
theorem upsertDiscovered_idempotent :
    (∀ ds nd, nd.id ∈ ds.map (fun d => d.id) → upsertDiscovered ds nd = ds)
    ∧ (∀ (ds recs : List BluetoothDevice) (i : String),
        (ds.map (fun d => d.id)).Nodup → recs ≠ [] → (∀ r ∈ recs, r.id = i) →
        (recs.foldl upsertDiscovered ds).countP (fun d => d.id == i) = 1
          ∧ ((recs.foldl upsertDiscovered ds).map (fun d => d.id)).Nodup) := by
  constructor
  · exact upsertDiscovered_noop_of_mem
  · intro ds recs i hn hne hall
    cases recs with
    | nil => exact absurd rfl hne
    | cons r t =>
      have hri : r.id = i := hall r (List.mem_cons_self r t)
      have h1 : (upsertDiscovered ds r).countP (fun d => d.id == i) = 1 := by
        have := upsertDiscovered_count_one ds r hn
        rwa [hri] at this
      have hn1 : ((upsertDiscovered ds r).map (fun d => d.id)).Nodup :=
        upsertDiscovered_nodup ds r hn
      rw [List.foldl_cons,
        foldl_upsert_noop t i (upsertDiscovered ds r)
          (fun x hx => hall x (List.mem_cons_of_mem r hx)) h1]
      exact ⟨h1, hn1⟩

/-- Witness for C4: submitting the same unknown record twice over the
simulated registry yields exactly one entry with its id. -/
theorem upsertDiscovered_idempotent_witness :
    (([ghostDev, { ghostDev with name := "Ghost again" }].foldl
        upsertDiscovered simulatedDevices).countP (fun d => d.id == "99") = 1)
    ∧ ((([ghostDev, { ghostDev with name := "Ghost again" }].foldl
        upsertDiscovered simulatedDevices).map (fun d => d.id)).Nodup) :=
  upsertDiscovered_idempotent.2 simulatedDevices
    [ghostDev, { ghostDev with name := "Ghost again" }] "99"
    (by decide) (by decide) (by decide)

/-! Claim C5. -/

/-- The selection is unset or refers to the id of a connected device. -/
def selectionInvariant (st : AppState) : Prop :=
  ∀ s, st.selectedDevice = some s →
    s.id ∈ st.connectedDevices.map (fun d => d.id)

/-- Sending touches only the log, the draft and the pending callbacks. -/
lemma sendMessage_preserves_session (st : AppState) (rid : String) (now : Nat)
    (u : ℚ) :
    (sendMessage st rid now u).selectedDevice = st.selectedDevice
      ∧ (sendMessage st rid now u).connectedDevices = st.connectedDevices := by
  cases hsel : st.selectedDevice with
  | none => simp [sendMessage, hsel]
  | some sel =>
    by_cases h : jsTrim st.currentMessage = "" <;> simp [sendMessage, hsel, h]

/-- A firing callback touches only the log and the pending callbacks. -/
lemma fireAt_preserves_session (st : AppState) (j : Nat) (rid : String)
    (now : Nat) (u : ℚ) :
    (fireAt st j rid now u).selectedDevice = st.selectedDevice
      ∧ (fireAt st j rid now u).connectedDevices = st.connectedDevices := by
  cases h : st.pending[j]? with
  | none => simp [fireAt, h]
  | some ev => simp [fireAt, h]

/-- Preservation of the selection invariant by every interface event. -/
lemma selectionInvariant_step (st : AppState) (a : Action)
    (hv : validAction st a = true) (h : selectionInvariant st) :
    selectionInvariant (applyAction st a) := by
  cases a with
  | scan i n =>
    intro s hs
    exact h s hs
  | connect d =>
    intro s hs
    have := h s hs
    simp only [applyAction, connectToDevice, List.map_append, List.mem_append]
    exact Or.inl this
  | disconnect d =>
    cases hsel : st.selectedDevice with
    | none =>
      intro s hs
      simp [applyAction, disconnectDevice, hsel] at hs
    | some s0 =>
      intro s hs
      simp only [applyAction, disconnectDevice, hsel, beq_iff_eq] at hs
      by_cases hid : s0.id = d.id
      · rw [if_pos hid] at hs
        simp at hs
      · rw [if_neg hid] at hs
        have hseq : s0 = s := by simpa using hs
        subst hseq
        have hmem := h s0 hsel
        rcases List.mem_map.mp hmem with ⟨x, hx, hxid⟩
        simp only [applyAction, disconnectDevice]
        refine List.mem_map.mpr ⟨x, List.mem_filter.mpr ⟨hx, ?_⟩, hxid⟩
        simp only [Bool.not_eq_eq_eq_not, Bool.not_true, beq_eq_false_iff_ne]
        rw [hxid]
        exact hid
  | select d =>
    intro s hs
    simp only [applyAction, setSelectedDevice, Option.some.injEq] at hs
    subst hs
    have hd : d ∈ st.connectedDevices := by
      simpa [validAction] using hv
    exact List.mem_map.mpr ⟨d, hd, rfl⟩
  | typeMessage s' =>
    intro s hs
    exact h s hs
  | send rid now u =>
    intro s hs
    have hp := sendMessage_preserves_session st rid now u
    simp only [applyAction] at hs ⊢
    rw [hp.1] at hs
    rw [hp.2]
    exact h s hs
  | fire j rid now u =>
    intro s hs
    have hp := fireAt_preserves_session st j rid now u
    simp only [applyAction] at hs ⊢
    rw [hp.1] at hs
    rw [hp.2]
    exact h s hs

/-- The selection invariant holds along every valid trace. -/
lemma selectionInvariant_run (tr : List Action) :
    ∀ st : AppState, validFrom st tr = true → selectionInvariant st →
      selectionInvariant (runTrace st tr) := by
  induction tr with
  | nil => intro st _ h; exact h
  | cons a t ih =>
    intro st hv h
    simp only [validFrom, Bool.and_eq_true] at hv
    exact ih (applyAction st a) hv.2 (selectionInvariant_step st a hv.1 h)

/-- C5 (amended): in every state the interface can reach, the selection is
unset or refers to a connected device's id; `disconnectDevice` removes the
id from the connected set and clears the selection when it was the active
device.  There is no `NotConnectedError`: selecting a non-connected device
is prevented by construction — the click handler exists only on entries of
the connected list — and the raw `setSelectedDevice` setter sets any device
unconditionally, without error. -/
theorem selection_always_connected :
    (∀ tr, validFrom initState tr = true →
        selectionInvariant (runTrace initState tr))
    ∧ (∀ st d, (∀ x ∈ (disconnectDevice st d).connectedDevices, x.id ≠ d.id)
        ∧ (∀ s, st.selectedDevice = some s → s.id = d.id →
            (disconnectDevice st d).selectedDevice = none))
    ∧ (∀ st d, (setSelectedDevice st d).selectedDevice = some d) := by
  refine ⟨?_, ?_, ?_⟩
  · intro tr hv
    exact selectionInvariant_run tr initState hv
      (by intro s hs; simp [initState] at hs)
  · intro st d
    constructor
    · intro x hx
      have := List.mem_filter.mp hx
      simpa using this.2
    · intro s hsel hid
      simp [disconnectDevice, hsel, hid]
  · intro st d
    rfl

/-- Witness for C5: after connecting and selecting Alice, the invariant
instance yields that her id is among the connected ids. -/
theorem selection_always_connected_witness :
    "1" ∈ (runTrace initState [.connect aliceDev, .select aliceConn]
        ).connectedDevices.map (fun d => d.id) := by
  have h := selection_always_connected.1 [.connect aliceDev, .select aliceConn]
    (by decide)
  exact h aliceConn (by decide)

/-- Counterexample for C5 as stated: the raw setter accepts a device that is
not connected — the selection changes and no error is raised, where the
claim demands a `NotConnectedError` and an unchanged selection. -/
theorem setSelectedDevice_accepts_unconnected :
    initState.connectedDevices = []
    ∧ (setSelectedDevice initState aliceDev).selectedDevice
        ≠ initState.selectedDevice := by
  constructor
  · rfl
  · decide

/-! Claim C8. -/

/-- C8: a save followed by a load reproduces the message log — equal by id,
by content, and in length and order — and a load when no snapshot was ever
written yields the empty log (the code keeps the initial `[]`), never an
error: `loadSnapshot` is total. -/
theorem snapshot_roundtrip :
    (∀ ms : List Message,
        (loadSnapshot (saveSnapshot ms)).map (fun s => s.id)
            = ms.map (fun m => m.id)
          ∧ (loadSnapshot (saveSnapshot ms)).map (fun s => s.content)
            = ms.map (fun m => m.content)
          ∧ (loadSnapshot (saveSnapshot ms)).length = ms.length)
    ∧ loadSnapshot none = [] := by
  constructor
  · intro ms
    refine ⟨?_, ?_, ?_⟩ <;>
      simp [loadSnapshot, saveSnapshot, encodeMessage, List.map_map,
        Function.comp]
  · rfl

/-! Claim C7. -/

/-- C7: every send with a selected device and non-blank draft schedules
exactly one inbound reply on the selected thread, with delay
`1000 + u * 2000`, which under the `Math.random` contract `0 ≤ u < 1` lies
in the interval from 1000 to 3000 milliseconds (1.0 to 3.0 seconds); the
reply text is drawn from the fixed non-empty pool; and a firing reply
callback appends its inbound message to the same thread in any state — in
particular also when the device has been disconnected meanwhile, since the
callback never consults the connected set. -/
theorem reply_simulation_correct :
    (∀ st sel rid now u, st.selectedDevice = some sel →
        jsTrim st.currentMessage ≠ "" →
        (sendMessage st rid now u).pending
          = st.pending ++ [.reply sel.id sel.name (1000 + u * 2000)])
    ∧ (∀ u : ℚ, 0 ≤ u → u < 1 →
        (1000 : ℚ) ≤ 1000 + u * 2000 ∧ 1000 + u * 2000 < 3000)
    ∧ responses ≠ []
    ∧ (∀ u : ℚ, 0 ≤ u → u < 1 → chooseResponse u ∈ responses)
    ∧ (∀ st j did dname del rid now u,
        st.pending[j]? = some (.reply did dname del) →
        getMessagesForDevice (fireAt st j rid now u) did
          = getMessagesForDevice st did
            ++ [⟨rid, did, dname, chooseResponse u, now, false⟩]) := by
  refine ⟨?_, ?_, ?_, ?_, ?_⟩
  · intro st sel rid now u hsel hne
    simp [sendMessage, hsel, hne]
  · intro u h0 h1
    constructor <;> nlinarith
  · decide
  · intro u h0 h1
    have hk := chooseResponse_index_lt u h0 h1
    unfold chooseResponse
    set k := Int.toNat ⌊u * 7⌋ with hkdef
    interval_cases k <;> decide
  · intro st j did dname del rid now u h
    simp [fireAt, h, getMessagesForDevice, firedMessage, List.filter_append]

/-- Witness for C7: the four conditional parts instantiated — scheduling a
reply for the draft of `stHi` with draw one half, the delay bounds at one
half, the pool membership at one half, and the delivery of a pending reply
for a device that is not connected. -/
theorem reply_simulation_witness :
    ((sendMessage stHi "X" 5 (1 / 2)).pending
        = stHi.pending
          ++ [.reply aliceConn.id aliceConn.name (1000 + (1 / 2 : ℚ) * 2000)])
    ∧ ((1000 : ℚ) ≤ 1000 + (1 / 2 : ℚ) * 2000
        ∧ 1000 + (1 / 2 : ℚ) * 2000 < 3000)
    ∧ chooseResponse (1 / 2) ∈ responses
    ∧ (getMessagesForDevice (fireAt stReplyPending 0 "R" 9 (1 / 2)) "1"
        = getMessagesForDevice stReplyPending "1"
          ++ [⟨"R", "1", "A", chooseResponse (1 / 2), 9, false⟩]) :=
  ⟨reply_simulation_correct.1 stHi aliceConn "X" 5 (1 / 2) rfl (by decide),
   reply_simulation_correct.2.1 (1 / 2) (by norm_num) (by norm_num),
   reply_simulation_correct.2.2.2.1 (1 / 2) (by norm_num) (by norm_num),
   reply_simulation_correct.2.2.2.2 stReplyPending 0 "1" "A" 1500 "R" 9
     (1 / 2) rfl⟩

/-! Claim C6. -/

/-- Removing the element at a position splits a `countP` (stated on the
`getElem?` access used by `fireAt`). -/
lemma countP_eraseIdx_of_getElem {α : Type} (p : α → Bool) (l : List α)
    (j : Nat) (ev : α) (h : l[j]? = some ev) :
    (l.eraseIdx j).countP p + (if p ev then 1 else 0) = l.countP p := by
  induction l generalizing j with
  | nil => simp at h
  | cons a t ih =>
    cases j with
    | zero =>
      simp only [List.getElem?_cons_zero, Option.some.injEq] at h
      subst h
      simp [List.eraseIdx, List.countP_cons]
    | succ k =>
      simp only [List.getElem?_cons_succ] at h
      simp only [List.eraseIdx_cons_succ, List.countP_cons]
      have := ih k h
      omega

/-- One event changes the welcome-message ledger of a device — delivered
welcome messages plus pending welcome callbacks — by exactly the number of
connect events it contains. -/
lemma welcome_count_step (st : AppState) (a : Action) (i : String) :
    countWelcome (applyAction st a) i + pendingWelcomeCount (applyAction st a) i
      = countWelcome st i + pendingWelcomeCount st i + connectCount [a] i := by
  cases a with
  | scan idv n =>
    simp [applyAction, countWelcome, pendingWelcomeCount, getMessagesForDevice,
      connectCount, isConnectTo]
  | connect d =>
    simp only [applyAction, connectToDevice, countWelcome,
      pendingWelcomeCount, getMessagesForDevice, connectCount,
      List.countP_append, List.countP_cons, List.countP_nil,
      isPendingWelcomeFor, isConnectTo]
    omega
  | disconnect d =>
    simp [applyAction, disconnectDevice, countWelcome, pendingWelcomeCount,
      getMessagesForDevice, connectCount, isConnectTo]
  | select d =>
    simp [applyAction, setSelectedDevice, countWelcome, pendingWelcomeCount,
      getMessagesForDevice, connectCount, isConnectTo]
  | typeMessage s =>
    simp [applyAction, countWelcome, pendingWelcomeCount,
      getMessagesForDevice, connectCount, isConnectTo]
  | send rid now u =>
    cases hsel : st.selectedDevice with
    | none =>
      simp [applyAction, sendMessage, hsel, countWelcome, pendingWelcomeCount,
        getMessagesForDevice, connectCount, isConnectTo]
    | some sel =>
      by_cases h : jsTrim st.currentMessage = ""
      · simp [applyAction, sendMessage, hsel, h, countWelcome,
          pendingWelcomeCount, getMessagesForDevice, connectCount, isConnectTo]
      · simp [applyAction, sendMessage, hsel, h, countWelcome,
          pendingWelcomeCount, getMessagesForDevice, connectCount, isConnectTo,
          List.filter_append, List.countP_append, mkSentMessage,
          List.countP_cons, isWelcomeMsg, isPendingWelcomeFor]
  | fire j rid now u =>
    cases h : st.pending[j]? with
    | none =>
      simp [applyAction, fireAt, h, countWelcome, pendingWelcomeCount,
        getMessagesForDevice, connectCount, isConnectTo]
    | some ev =>
      cases ev with
      | welcome did dname del =>
        have herase := countP_eraseIdx_of_getElem (isPendingWelcomeFor i)
          st.pending j (.welcome did dname del) h
        have hpw : isPendingWelcomeFor i (.welcome did dname del)
            = (did == i) := rfl
        rw [hpw] at herase
        simp only [applyAction, fireAt, h, countWelcome, pendingWelcomeCount,
          getMessagesForDevice, firedMessage, connectCount,
          List.filter_append, List.countP_append]
        have hsingle :
            (List.filter (fun m => m.deviceId == i)
              [(⟨rid, did, dname, welcomeText, now, false⟩ : Message)]
              ).countP isWelcomeMsg
            = (if (did == i) = true then 1 else 0) := by
          by_cases hdi : did = i
          · simp [List.filter_cons, hdi, isWelcomeMsg]
          · simp [List.filter_cons, hdi, isWelcomeMsg,
              show (did == i) = false by simp [hdi]]
        rw [hsingle]
        have hfire : (List.countP (isConnectTo i) [Action.fire j rid now u])
            = 0 := rfl
        rw [hfire]
        omega
      | reply did dname del =>
        have hne : isWelcomeMsg ⟨rid, did, dname, chooseResponse u, now, false⟩
            = false := by
          simp [isWelcomeMsg, chooseResponse_ne_welcomeText u]
        have herase := countP_eraseIdx_of_getElem (isPendingWelcomeFor i)
          st.pending j (.reply did dname del) h
        have hpw : isPendingWelcomeFor i (.reply did dname del) = false := rfl
        rw [hpw] at herase
        simp only [Bool.false_eq_true, if_false, Nat.add_zero] at herase
        simp only [applyAction, fireAt, h, countWelcome, pendingWelcomeCount,
          getMessagesForDevice, firedMessage, connectCount,
          List.filter_append, List.countP_append]
        have hsingle :
            (List.filter (fun m => m.deviceId == i)
              [(⟨rid, did, dname, chooseResponse u, now, false⟩ : Message)]
              ).countP isWelcomeMsg = 0 := by
          by_cases hdi : did = i
          · subst hdi
            simp [List.filter_cons, hne]
          · simp [List.filter_cons,
              show (did == i) = false by simp [hdi]]
        rw [hsingle]
        have hfire : (List.countP (isConnectTo i) [Action.fire j rid now u])
            = 0 := rfl
        rw [hfire]
        omega

/-- Along any trace, delivered plus pending welcome messages for a device
grow by exactly the number of its connect events. -/
lemma welcome_count_run (tr : List Action) :
    ∀ (st : AppState) (i : String),
      countWelcome (runTrace st tr) i + pendingWelcomeCount (runTrace st tr) i
        = countWelcome st i + pendingWelcomeCount st i + connectCount tr i := by
  induction tr with
  | nil => intro st i; simp [runTrace, connectCount]
  | cons a t ih =>
    intro st i
    have hstep := welcome_count_step st a i
    have hrun := ih (applyAction st a) i
    have hcc : connectCount (a :: t) i = connectCount [a] i + connectCount t i := by
      simp only [connectCount, List.countP_cons, List.countP_nil]
      omega
    simp only [runTrace]
    omega

/-- C6: each `connectToDevice` schedules exactly one welcome callback, with
the fixed 1000 ms delay, attributed to the connecting device's id and name;
a firing welcome callback appends exactly one inbound message with the
fixed welcome text at the end of that device's thread; along every trace
from the initial state the delivered plus still-pending welcome messages
for a device equal its connect events — so once the delay window has passed
and no welcome callback is pending, the thread holds exactly one welcome
message per connect. -/
theorem welcome_message_correct :
    (∀ st d, (connectToDevice st d).pending
        = st.pending ++ [.welcome d.id d.name 1000])
    ∧ (∀ st j did dname del rid now u,
        st.pending[j]? = some (.welcome did dname del) →
        getMessagesForDevice (fireAt st j rid now u) did
          = getMessagesForDevice st did
            ++ [⟨rid, did, dname, welcomeText, now, false⟩])
    ∧ (∀ tr i, countWelcome (runTrace initState tr) i
          + pendingWelcomeCount (runTrace initState tr) i = connectCount tr i)
    ∧ (∀ tr i, pendingWelcomeCount (runTrace initState tr) i = 0 →
        countWelcome (runTrace initState tr) i = connectCount tr i) := by
  have hrun : ∀ tr i, countWelcome (runTrace initState tr) i
      + pendingWelcomeCount (runTrace initState tr) i = connectCount tr i := by
    intro tr i
    have h := welcome_count_run tr initState i
    have h0 : countWelcome initState i = 0 := rfl
    have h1 : pendingWelcomeCount initState i = 0 := rfl
    omega
  refine ⟨?_, ?_, hrun, ?_⟩
  · intro st d; rfl
  · intro st j did dname del rid now u h
    simp [fireAt, h, getMessagesForDevice, firedMessage, List.filter_append]
  · intro tr i h
    have := hrun tr i
    omega

/-- Witness for C6: connecting Alice and letting her welcome callback fire
leaves exactly as many welcome messages on her thread as connects — one. -/
theorem welcome_message_witness :
    countWelcome (runTrace initState [.connect aliceDev, .fire 0 "W" 7 0]) "1"
      = connectCount [.connect aliceDev, .fire 0 "W" 7 0] "1" :=
  welcome_message_correct.2.2.2 [.connect aliceDev, .fire 0 "W" 7 0] "1"
    (by decide)

/-! Claim C9. -/

/-- One event extends the id column of the log by at most its own id draw. -/
lemma messages_ids_sublist_step (st : AppState) (a : Action) :
    ((applyAction st a).messages.map (fun m => m.id)).Sublist
      (st.messages.map (fun m => m.id) ++ ridsOfAction a) := by
  cases a with
  | scan idv n => simp [applyAction, ridsOfAction]
  | connect d => simp [applyAction, connectToDevice, ridsOfAction]
  | disconnect d => simp [applyAction, disconnectDevice, ridsOfAction]
  | select d => simp [applyAction, setSelectedDevice, ridsOfAction]
  | typeMessage s => simp [applyAction, ridsOfAction]
  | send rid now u =>
    cases hsel : st.selectedDevice with
    | none =>
      simp only [applyAction, sendMessage, hsel, ridsOfAction]
      exact List.sublist_append_left _ _
    | some sel =>
      by_cases h : jsTrim st.currentMessage = ""
      · simp only [applyAction, sendMessage, hsel, h, if_true, ridsOfAction]
        exact List.sublist_append_left _ _
      · simp only [applyAction, sendMessage, hsel, h, if_false, ridsOfAction,
          List.map_append, mkSentMessage]
        simp
  | fire j rid now u =>
    cases h : st.pending[j]? with
    | none =>
      simp only [applyAction, fireAt, h, ridsOfAction]
      exact List.sublist_append_left _ _
    | some ev =>
      cases ev with
      | welcome did dname del =>
        simp [applyAction, fireAt, h, ridsOfAction, firedMessage,
          List.map_append]
      | reply did dname del =>
        simp [applyAction, fireAt, h, ridsOfAction, firedMessage,
          List.map_append]

/-- The id column of the log after a trace is a subsequence of the starting
ids followed by the trace's draws, in order. -/
lemma messages_ids_sublist_run (tr : List Action) :
    ∀ st : AppState,
      ((runTrace st tr).messages.map (fun m => m.id)).Sublist
        (st.messages.map (fun m => m.id) ++ ridsOf tr) := by
  induction tr with
  | nil => intro st; simp [runTrace, ridsOf]
  | cons a t ih =>
    intro st
    have h1 := ih (applyAction st a)
    have h2 := (messages_ids_sublist_step st a).append
      (List.Sublist.refl (ridsOf t))
    have h3 := h1.trans h2
    simp only [runTrace]
    have hr : ridsOf (a :: t) = ridsOfAction a ++ ridsOf t := by
      simp [ridsOf]
    rw [hr, ← List.append_assoc]
    exact h3

/-- C9 (amended): message ids are exactly the `Math.random().toString()`
draws of the events that appended them, so they are pairwise distinct
whenever the draws of the trace are pairwise distinct — across sends,
welcome callbacks and simulated replies, on all threads and under every
interleaving of callbacks.  Nothing in the code enforces distinctness of
the draws themselves. -/
theorem message_ids_nodup_of_distinct_draws (tr : List Action)
    (h : (ridsOf tr).Nodup) :
    ((runTrace initState tr).messages.map (fun m => m.id)).Nodup := by
  have hs := messages_ids_sublist_run tr initState
  have h0 : initState.messages.map (fun m => m.id) = [] := rfl
  rw [h0, List.nil_append] at hs
  exact hs.nodup h

/-- Witness for C9: a connect-select-send-send trace with distinct draws
yields pairwise distinct message ids. -/
theorem message_ids_nodup_witness :
    ((runTrace initState freshTrace).messages.map (fun m => m.id)).Nodup :=
  message_ids_nodup_of_distinct_draws freshTrace (by decide)

/-- Counterexample for C9 as stated: when two sends draw the same
`Math.random()` id, two distinct messages — their contents differ — carry
the same id: uniqueness is not guaranteed by the code. -/
theorem message_ids_collide :
    (runTrace initState dupTrace).messages.map (fun m => m.id) = ["X", "X"]
    ∧ ¬ ((runTrace initState dupTrace).messages.map (fun m => m.id)).Nodup
    ∧ (runTrace initState dupTrace).messages.map (fun m => m.content)
        = ["hi", "yo"] := by
  refine ⟨by decide, by decide, by decide⟩

end BTChat
